import Mathlib

/-!
Shallow embedding of the consensus engine of `src/wasm/src/lib.rs`
(function `analyze_consensus`, lines 287-384, together with the record
type `ConsensusVote` and the result types `StatementConsensus`,
`OpinionCluster`, `ConsensusResult`).

Modelling choices:
* The Rust field `value : i8` is modelled as `Int`.  No claim depends on
  i8 wrap-around: the wasm boundary cannot carry a payload large enough
  to overflow any of the `u32` counters either (a wasm32 linear memory
  holds less than 2^32 bytes, and each vote record takes several bytes),
  so `u32` counters are modelled as `Nat`.
* The `f64` fields (`agreement_ratio`, `divisiveness`, `avg_agreement`,
  the per-user mean) are modelled as `ℚ`.  Every number the code puts in
  them is exactly representable or only compared for sign/bounds, and
  IEEE division of exact small integers preserves sign and the `[0, 1]`
  bounds the claims are about, so the rational model decides the same
  predicates.
* The two `HashSet`s of user and statement identifiers are collected
  into `Vec`s in the set's iteration order, which Rust's `RandomState`
  does not fix.  The embedding therefore takes the two lists `ulist` and
  `slist` as explicit parameters; `ValidUserOrder` / `ValidStmtOrder`
  say exactly that a list is a possible iteration order (no duplicates,
  same members as the set that was iterated).
* The `HashMap<String, HashMap<String, i8>>` vote matrix is modelled by
  its lookup function, built by the same insertion fold the code runs;
  `userHasEntry` models the presence of an outer key, which the bisector
  tests with `matrix.get(uid)`.
-/

namespace Purplesky

/-- Embeds the Rust struct `ConsensusVote` (lib.rs lines 236-242):
`user_id`, `statement_id` and a small signed integer `value`. -/
structure ConsensusVote where
  user_id : String
  statement_id : String
  value : Int
deriving DecidableEq

/-- Embeds the Rust struct `StatementConsensus` (lib.rs lines 245-256).
Counters are `Nat` for `u32`, ratios are `ℚ` for `f64`. -/
structure StatementConsensus where
  statement_id : String
  agree_count : Nat
  disagree_count : Nat
  pass_count : Nat
  total_voters : Nat
  agreement_ratio : ℚ
  divisiveness : ℚ
deriving DecidableEq

/-- Embeds the Rust struct `OpinionCluster` (lib.rs lines 270-277). -/
structure OpinionCluster where
  id : Nat
  member_count : Nat
  member_ids : List String
  avg_agreement : ℚ
deriving DecidableEq

/-- Embeds the Rust struct `ConsensusResult` (lib.rs lines 259-267). -/
structure ConsensusResult where
  statements : List StatementConsensus
  total_participants : Nat
  cluster_count : Nat
  clusters : List OpinionCluster
deriving DecidableEq

/-- One element of the JSON input array as seen by
`serde_json::from_str::<Vec<ConsensusVote>>` (lib.rs line 288): either a
well-formed record or a malformed one (e.g. a field is missing, or
`value` does not fit in `i8`). -/
inductive RawRecord where
  | ok (v : ConsensusVote)
  | malformed
deriving DecidableEq

/-- Embeds `serde_json::from_str::<Vec<ConsensusVote>>` over an input
array of records (lib.rs line 288): elements are deserialized in
sequence and the first malformed element aborts the whole parse with an
error, exactly as serde derives it for `Vec<T>`. -/
def parseVotes : List RawRecord → Option (List ConsensusVote)
  | [] => some []
  | RawRecord.ok v :: rest => (parseVotes rest).map (fun vs => v :: vs)
  | RawRecord.malformed :: _ => none

/-- Embeds `...unwrap_or_default()` on the parse result (lib.rs line
288): a failed parse degrades to the empty vote list. -/
def parsedOrDefault (records : List RawRecord) : List ConsensusVote :=
  (parseVotes records).getD []

/-- The empty vote matrix (lib.rs line 301-302). -/
def emptyMatrix : String → String → Option Int := fun _ _ => none

/-- One step of the matrix-building loop (lib.rs lines 303-308):
`matrix.entry(v.user_id).or_default().insert(v.statement_id, v.value)`.
A later insert for the same key pair overwrites an earlier one. -/
def insertVote (m : String → String → Option Int) (v : ConsensusVote) :
    String → String → Option Int :=
  fun u s => if u = v.user_id ∧ s = v.statement_id then some v.value else m u s

/-- The vote matrix built from the whole input, as a lookup function:
`matrix.get(u).and_then(|m| m.get(s))` (lib.rs lines 301-308, 317). -/
def buildMatrix (votes : List ConsensusVote) : String → String → Option Int :=
  votes.foldl insertVote emptyMatrix

/-- Whether `matrix.get(u)` is `Some` (lib.rs line 347): the outer map
has a key for `u` exactly when some input vote carries that `user_id`. -/
def userHasEntry (votes : List ConsensusVote) (u : String) : Bool :=
  votes.any (fun v => decide (v.user_id = u))

/-- A list is a possible iteration order of the user `HashSet` built on
lib.rs lines 291-297: no duplicates, and its members are exactly the
`user_id`s occurring in the input. -/
def ValidUserOrder (votes : List ConsensusVote) (ulist : List String) : Prop :=
  ulist.Nodup ∧ (∀ u ∈ ulist, ∃ v ∈ votes, v.user_id = u) ∧
    ∀ v ∈ votes, v.user_id ∈ ulist

/-- A list is a possible iteration order of the statement `HashSet`
built on lib.rs lines 291-298. -/
def ValidStmtOrder (votes : List ConsensusVote) (slist : List String) : Prop :=
  slist.Nodup ∧ (∀ s ∈ slist, ∃ v ∈ votes, v.statement_id = s) ∧
    ∀ v ∈ votes, v.statement_id ∈ slist

instance (votes : List ConsensusVote) (ulist : List String) :
    Decidable (ValidUserOrder votes ulist) := by
  unfold ValidUserOrder
  infer_instance

instance (votes : List ConsensusVote) (slist : List String) :
    Decidable (ValidStmtOrder votes slist) := by
  unfold ValidStmtOrder
  infer_instance

/-- One step of the per-statement tally loop (lib.rs lines 316-322):
`Some(1)` counts as agree, `Some(-1)` as disagree, anything else
(any other recorded value, or no recorded vote) as pass. -/
def tallyUser (m : String → String → Option Int) (sid : String)
    (acc : Nat × Nat × Nat) (uid : String) : Nat × Nat × Nat :=
  if m uid sid = some 1 then (acc.1 + 1, acc.2.1, acc.2.2)
  else if m uid sid = some (-1) then (acc.1, acc.2.1 + 1, acc.2.2)
  else (acc.1, acc.2.1, acc.2.2 + 1)

/-- The complete tally `(agree, disagree, pass)` of one statement over
every known user (lib.rs lines 313-322). -/
def tallyAll (m : String → String → Option Int) (ulist : List String)
    (sid : String) : Nat × Nat × Nat :=
  ulist.foldl (tallyUser m sid) (0, 0, 0)

/-- The `StatementConsensus` record built for one statement (lib.rs
lines 312-341): `total_voters` is the full tally total, the ratio and
divisiveness are computed only over the agree/disagree subset and
default to 0 when that subset is empty. -/
def statementConsensus (m : String → String → Option Int)
    (ulist : List String) (sid : String) : StatementConsensus :=
  let t := tallyAll m ulist sid
  let agree := t.1
  let disagree := t.2.1
  let pass := t.2.2
  let total := agree + disagree + pass
  let voters := agree + disagree
  let ratio : ℚ := if 0 < voters then (agree : ℚ) / (voters : ℚ) else 0
  { statement_id := sid
    agree_count := agree
    disagree_count := disagree
    pass_count := pass
    total_voters := total
    agreement_ratio := ratio
    divisiveness := if 0 < voters then 1 - |ratio - 1 / 2| * 2 else 0 }

/-- The sum of one user's recorded values over the statement list, an
unrecorded vote reading as 0: `stmt_list.iter().map(|s|
*vm.get(s).unwrap_or(&0)).sum()` (lib.rs line 349). -/
def userSum (votes : List ConsensusVote) (slist : List String)
    (u : String) : Int :=
  (slist.map (fun s => (buildMatrix votes u s).getD 0)).sum

/-- The bisector's per-user average vote (lib.rs lines 347-353): the sum
of the user's recorded values over all statements divided by the number
of statements, 0 when there are no statements or when the matrix has no
entry for the user. -/
def userAvg (votes : List ConsensusVote) (slist : List String)
    (u : String) : ℚ :=
  if userHasEntry votes u then
    if slist = [] then 0
    else (userSum votes slist u : ℚ) / (slist.length : ℚ)
  else 0

/-- The bisector loop (lib.rs lines 344-359): every user goes to
`cluster_a` when their average is `>= 0.0` and to `cluster_b`
otherwise, in user-list order. -/
def splitUsers (votes : List ConsensusVote) (ulist slist : List String) :
    List String × List String :=
  ulist.foldl
    (fun acc uid =>
      if userAvg votes slist uid ≥ 0 then (acc.1 ++ [uid], acc.2)
      else (acc.1, acc.2 ++ [uid]))
    ([], [])

/-- Embeds `analyze_consensus` (lib.rs lines 287-384) after JSON
decoding, with the iteration orders of the two identifier sets passed
explicitly (see the header comment). -/
def analyze_consensus (votes : List ConsensusVote)
    (ulist slist : List String) : ConsensusResult :=
  let m := buildMatrix votes
  let stmt_results := slist.map (statementConsensus m ulist)
  let split := splitUsers votes ulist slist
  let cluster_a := split.1
  let cluster_b := split.2
  let clusters : List OpinionCluster :=
    [{ id := 0
       member_count := cluster_a.length
       member_ids := cluster_a
       avg_agreement := if cluster_a ≠ [] then (7 : ℚ) / 10 else 0 },
     { id := 1
       member_count := cluster_b.length
       member_ids := cluster_b
       avg_agreement := if cluster_b ≠ [] then (3 : ℚ) / 10 else 0 }]
  { statements := stmt_results
    total_participants := ulist.length
    cluster_count := if clusters.any (fun c => decide (0 < c.member_count)) then 2 else 0
    clusters := clusters }

/-- The `member_ids` list of cluster `i` of a result. -/
def clusterMembers (r : ConsensusResult) (i : Nat) : List String :=
  (r.clusters.map OpinionCluster.member_ids).getD i []

/-- The `member_count` field of cluster `i` of a result. -/
def clusterMemberCount (r : ConsensusResult) (i : Nat) : Nat :=
  (r.clusters.map OpinionCluster.member_count).getD i 0

/-- The `avg_agreement` field of cluster `i` of a result. -/
def clusterAvgAgreement (r : ConsensusResult) (i : Nat) : ℚ :=
  (r.clusters.map OpinionCluster.avg_agreement).getD i 0

/-- Modelled from the spec: "the most recent vote value supplied for
that pair" — the value of the last occurrence, in input order, of a
vote on `(u, s)`; `none` when no such vote exists.  Used as the
spec-side reference point for the last-write-wins behaviour. -/
def lastRecordedVote (votes : List ConsensusVote) (u s : String) :
    Option Int :=
  ((votes.filter (fun v => decide (u = v.user_id ∧ s = v.statement_id))).getLast?).map
    ConsensusVote.value

/-- Modelled from the spec (§4.3): "the arithmetic mean of that user's
vote values across all statements, treating an unrecorded vote as 0",
with the mean defined as 0 when the statement set is empty. -/
def specUserMean (votes : List ConsensusVote) (slist : List String)
    (u : String) : ℚ :=
  if slist = [] then 0
  else ((slist.map (fun s => (lastRecordedVote votes u s).getD 0)).sum : ℚ) /
    (slist.length : ℚ)

/-! ### Helper lemmas about the matrix -/

lemma buildMatrix_concat (l : List ConsensusVote) (v : ConsensusVote)
    (u s : String) :
    buildMatrix (l ++ [v]) u s =
      if u = v.user_id ∧ s = v.statement_id then some v.value
      else buildMatrix l u s := by
  simp [buildMatrix, List.foldl_append, insertVote]

lemma buildMatrix_eq_lastRecordedVote (votes : List ConsensusVote)
    (u s : String) :
    buildMatrix votes u s = lastRecordedVote votes u s := by
  induction votes using List.reverseRecOn with
  | nil => rfl
  | append_singleton l v ih =>
      rw [buildMatrix_concat]
      unfold lastRecordedVote
      rw [List.filter_append]
      by_cases h : u = v.user_id ∧ s = v.statement_id
      · rw [if_pos h]
        have hf : List.filter
            (fun w => decide (u = w.user_id ∧ s = w.statement_id)) [v] = [v] := by
          simp only [List.filter_cons, List.filter_nil]
          rw [if_pos (by simpa using h)]
        rw [hf, List.getLast?_concat]
        rfl
      · rw [if_neg h]
        have hf : List.filter
            (fun w => decide (u = w.user_id ∧ s = w.statement_id)) [v] = [] := by
          simp only [List.filter_cons, List.filter_nil]
          rw [if_neg (by simpa using h)]
        rw [hf, List.append_nil]
        exact ih

lemma userHasEntry_false_lookup (votes : List ConsensusVote) (u : String)
    (h : userHasEntry votes u = false) (s : String) :
    buildMatrix votes u s = none := by
  rw [buildMatrix_eq_lastRecordedVote]
  unfold lastRecordedVote
  have hf : List.filter
      (fun w => decide (u = w.user_id ∧ s = w.statement_id)) votes = [] := by
    rw [List.filter_eq_nil_iff]
    intro a ha hc
    simp only [userHasEntry, List.any_eq_false, decide_eq_true_eq] at h
    exact h a ha (of_decide_eq_true hc).1.symm
  rw [hf]
  rfl

lemma userAvg_eq_specUserMean (votes : List ConsensusVote)
    (slist : List String) (u : String) :
    userAvg votes slist u = specUserMean votes slist u := by
  by_cases h : userHasEntry votes u = true
  · unfold userAvg specUserMean userSum
    rw [if_pos h]
    simp only [buildMatrix_eq_lastRecordedVote]
  · have hf : userHasEntry votes u = false := by simpa using h
    unfold userAvg specUserMean userSum
    rw [if_neg (by simp [hf])]
    by_cases hs : slist = []
    · rw [if_pos hs]
    · rw [if_neg hs]
      have hz : (slist.map (fun s => (lastRecordedVote votes u s).getD 0)).sum
          = 0 := by
        apply List.sum_eq_zero
        intro x hx
        obtain ⟨s, hs2, rfl⟩ := List.mem_map.1 hx
        rw [← buildMatrix_eq_lastRecordedVote,
          userHasEntry_false_lookup votes u hf s]
        rfl
      rw [hz]
      simp

/-! ### Helper lemmas about the tally and the bisector -/

lemma foldl_tallyUser (m : String → String → Option Int) (sid : String)
    (l : List String) (acc : Nat × Nat × Nat) :
    l.foldl (tallyUser m sid) acc =
      (acc.1 + l.countP (fun u => decide (m u sid = some 1)),
       acc.2.1 + l.countP (fun u => decide (m u sid = some (-1))),
       acc.2.2 + l.countP (fun u =>
         decide (¬ m u sid = some 1 ∧ ¬ m u sid = some (-1)))) := by
  induction l generalizing acc with
  | nil => simp
  | cons a t ih =>
      rw [List.foldl_cons, ih]
      simp only [List.countP_cons, tallyUser]
      by_cases h1 : m a sid = some 1
      · simp [Prod.ext_iff, h1]
        omega
      · by_cases h2 : m a sid = some (-1)
        · simp [Prod.ext_iff, h1, h2]
          omega
        · simp [Prod.ext_iff, h1, h2]
          omega

lemma tallyAll_eq (m : String → String → Option Int) (ulist : List String)
    (sid : String) :
    tallyAll m ulist sid =
      (ulist.countP (fun u => decide (m u sid = some 1)),
       ulist.countP (fun u => decide (m u sid = some (-1))),
       ulist.countP (fun u =>
         decide (¬ m u sid = some 1 ∧ ¬ m u sid = some (-1)))) := by
  unfold tallyAll
  rw [foldl_tallyUser]
  simp

lemma countP_tri (m : String → String → Option Int) (sid : String)
    (l : List String) :
    l.countP (fun u => decide (m u sid = some 1)) +
      l.countP (fun u => decide (m u sid = some (-1))) +
      l.countP (fun u =>
        decide (¬ m u sid = some 1 ∧ ¬ m u sid = some (-1))) = l.length := by
  induction l with
  | nil => simp
  | cons a t ih =>
      simp only [List.countP_cons, List.length_cons]
      by_cases h1 : m a sid = some 1
      · rw [if_pos (by simp [h1]), if_neg (by simp [h1]), if_neg (by simp [h1])]
        omega
      · by_cases h2 : m a sid = some (-1)
        · rw [if_neg (by simp [h1]), if_pos (by simp [h2]),
            if_neg (by simp [h2])]
          omega
        · rw [if_neg (by simp [h1]), if_neg (by simp [h2]),
            if_pos (by simp [h1, h2])]
          omega

lemma splitUsers_foldl (votes : List ConsensusVote) (slist : List String)
    (l : List String) (a b : List String) :
    l.foldl
      (fun acc uid =>
        if userAvg votes slist uid ≥ 0 then (acc.1 ++ [uid], acc.2)
        else (acc.1, acc.2 ++ [uid])) (a, b) =
      (a ++ l.filter (fun u => decide (userAvg votes slist u ≥ 0)),
       b ++ l.filter (fun u => decide (userAvg votes slist u < 0))) := by
  induction l generalizing a b with
  | nil => simp
  | cons x t ih =>
      rw [List.foldl_cons]
      by_cases hx : userAvg votes slist x ≥ 0
      · rw [if_pos hx, ih]
        have h2 : ¬ userAvg votes slist x < 0 := not_lt.2 hx
        simp [hx, h2, List.filter_cons]
      · rw [if_neg hx, ih]
        have h2 : userAvg votes slist x < 0 := not_le.1 hx
        simp [hx, h2, List.filter_cons]

lemma splitUsers_eq (votes : List ConsensusVote) (ulist slist : List String) :
    splitUsers votes ulist slist =
      (ulist.filter (fun u => decide (userAvg votes slist u ≥ 0)),
       ulist.filter (fun u => decide (userAvg votes slist u < 0))) := by
  unfold splitUsers
  rw [splitUsers_foldl]
  simp

lemma mem_cluster0_iff (votes : List ConsensusVote) (ulist slist : List String)
    (u : String) :
    u ∈ clusterMembers (analyze_consensus votes ulist slist) 0 ↔
      u ∈ ulist ∧ 0 ≤ userAvg votes slist u := by
  simp [clusterMembers, analyze_consensus, splitUsers_eq, List.mem_filter,
    ge_iff_le]

lemma mem_cluster1_iff (votes : List ConsensusVote) (ulist slist : List String)
    (u : String) :
    u ∈ clusterMembers (analyze_consensus votes ulist slist) 1 ↔
      u ∈ ulist ∧ userAvg votes slist u < 0 := by
  simp [clusterMembers, analyze_consensus, splitUsers_eq, List.mem_filter,
    ge_iff_le, not_le]

/-! ### Invariance under the choice of iteration order, and under the
matrix content -/

lemma validUserOrder_perm {votes : List ConsensusVote} {l1 l2 : List String}
    (h1 : ValidUserOrder votes l1) (h2 : ValidUserOrder votes l2) :
    l1.Perm l2 := by
  obtain ⟨hn1, ha1, hb1⟩ := h1
  obtain ⟨hn2, ha2, hb2⟩ := h2
  refine (List.perm_ext_iff_of_nodup hn1 hn2).2
    (fun u => ⟨fun hu => ?_, fun hu => ?_⟩)
  · obtain ⟨v, hv, hveq⟩ := ha1 u hu
    exact hveq ▸ hb2 v hv
  · obtain ⟨v, hv, hveq⟩ := ha2 u hu
    exact hveq ▸ hb1 v hv

lemma validStmtOrder_perm {votes : List ConsensusVote} {l1 l2 : List String}
    (h1 : ValidStmtOrder votes l1) (h2 : ValidStmtOrder votes l2) :
    l1.Perm l2 := by
  obtain ⟨hn1, ha1, hb1⟩ := h1
  obtain ⟨hn2, ha2, hb2⟩ := h2
  refine (List.perm_ext_iff_of_nodup hn1 hn2).2
    (fun s => ⟨fun hs => ?_, fun hs => ?_⟩)
  · obtain ⟨v, hv, hveq⟩ := ha1 s hs
    exact hveq ▸ hb2 v hv
  · obtain ⟨v, hv, hveq⟩ := ha2 s hs
    exact hveq ▸ hb1 v hv

lemma statementConsensus_perm (m : String → String → Option Int)
    {l1 l2 : List String} (h : l1.Perm l2) (sid : String) :
    statementConsensus m l1 sid = statementConsensus m l2 sid := by
  unfold statementConsensus
  simp only [tallyAll_eq, h.countP_eq]

lemma userAvg_perm (votes : List ConsensusVote) {s1 s2 : List String}
    (h : s1.Perm s2) (u : String) :
    userAvg votes s1 u = userAvg votes s2 u := by
  unfold userAvg userSum
  have hlen : s1.length = s2.length := h.length_eq
  have hsum : (s1.map (fun s => (buildMatrix votes u s).getD 0)).sum
      = (s2.map (fun s => (buildMatrix votes u s).getD 0)).sum :=
    (h.map _).sum_eq
  have hnil : s1 = [] ↔ s2 = [] := by
    rw [← List.length_eq_zero, ← List.length_eq_zero, hlen]
  by_cases hE : userHasEntry votes u = true
  · rw [if_pos hE, if_pos hE]
    by_cases hs : s1 = []
    · rw [if_pos hs, if_pos (hnil.1 hs)]
    · rw [if_neg hs, if_neg (fun hh => hs (hnil.2 hh)), hsum, hlen]
  · rw [if_neg hE, if_neg hE]

lemma userAvg_congr {votes1 votes2 : List ConsensusVote}
    (hm : buildMatrix votes1 = buildMatrix votes2)
    (he : userHasEntry votes1 = userHasEntry votes2)
    (slist : List String) (u : String) :
    userAvg votes1 slist u = userAvg votes2 slist u := by
  unfold userAvg userSum
  rw [hm, he]

lemma splitUsers_congr {votes1 votes2 : List ConsensusVote}
    (hm : buildMatrix votes1 = buildMatrix votes2)
    (he : userHasEntry votes1 = userHasEntry votes2)
    (ulist slist : List String) :
    splitUsers votes1 ulist slist = splitUsers votes2 ulist slist := by
  unfold splitUsers
  have h : userAvg votes1 = userAvg votes2 :=
    funext fun sl => funext fun u => userAvg_congr hm he sl u
  rw [h]

lemma filter_sign_length (votes : List ConsensusVote) (slist : List String)
    (l : List String) :
    (l.filter (fun u => decide (userAvg votes slist u ≥ 0))).length +
      (l.filter (fun u => decide (userAvg votes slist u < 0))).length =
      l.length := by
  induction l with
  | nil => simp
  | cons x t ih =>
      by_cases hx : userAvg votes slist x ≥ 0
      · simp only [List.filter_cons]
        rw [if_pos (by simpa using hx), if_neg (by simp [not_lt.2 hx])]
        simp only [List.length_cons]
        omega
      · simp only [List.filter_cons]
        rw [if_neg (by simpa using hx), if_pos (by simp [not_le.1 hx])]
        simp only [List.length_cons]
        omega

/-! ### Claim theorems -/

/-- C10: for every input and any iteration orders, the result's
`cluster_count` equals 2 if and only if `total_participants` is
positive: the two sign-clusters partition the user list, so one of them
is non-empty exactly when the user list is. -/
theorem C10_cluster_count_iff (votes : List ConsensusVote)
    (ulist slist : List String) :
    (analyze_consensus votes ulist slist).cluster_count = 2 ↔
      0 < (analyze_consensus votes ulist slist).total_participants := by
  have hpart := filter_sign_length votes slist ulist
  simp only [analyze_consensus, splitUsers_eq, List.any_cons, List.any_nil,
    Bool.or_false, Bool.or_eq_true, decide_eq_true_eq]
  split_ifs with h
  · constructor
    · intro _
      rcases h with h | h <;> omega
    · intro _
      rfl
  · push_neg at h
    constructor
    · intro hc
      exact absurd hc (by decide)
    · intro hl
      exfalso
      have h1 := h.1
      have h2 := h.2
      omega

/-- C4: in every result, each statement record satisfies
`agree_count + disagree_count + pass_count = total_voters`, and
`total_voters` equals `total_participants`, which is the number of
distinct users in the input: the tally loop iterates every known user
and puts each one in exactly one bucket. -/
theorem C4_population_invariant (votes : List ConsensusVote)
    (ulist slist : List String) (hu : ValidUserOrder votes ulist) :
    (∀ sc ∈ (analyze_consensus votes ulist slist).statements,
      sc.agree_count + sc.disagree_count + sc.pass_count = sc.total_voters ∧
      sc.total_voters =
        (analyze_consensus votes ulist slist).total_participants) ∧
    (analyze_consensus votes ulist slist).total_participants =
      ((votes.map ConsensusVote.user_id).dedup).length := by
  constructor
  · intro sc hsc
    simp only [analyze_consensus, List.mem_map] at hsc
    obtain ⟨sid, hsid, rfl⟩ := hsc
    refine ⟨rfl, ?_⟩
    show (statementConsensus (buildMatrix votes) ulist sid).total_voters =
      ulist.length
    simp only [statementConsensus, tallyAll_eq]
    exact countP_tri (buildMatrix votes) sid ulist
  · have hperm : ulist.Perm ((votes.map ConsensusVote.user_id).dedup) := by
      refine (List.perm_ext_iff_of_nodup hu.1 (List.nodup_dedup _)).2
        (fun u => ?_)
      rw [List.mem_dedup, List.mem_map]
      constructor
      · intro hul
        obtain ⟨v, hv, he⟩ := hu.2.1 u hul
        exact ⟨v, hv, he⟩
      · rintro ⟨v, hv, rfl⟩
        exact hu.2.2 v hv
    exact hperm.length_eq

/-- Witness for C4 at a concrete input. -/
theorem C4_population_invariant_witness :
    (analyze_consensus [ConsensusVote.mk "u1" "s1" 1] ["u1"]
      ["s1"]).total_participants =
      (([ConsensusVote.mk "u1" "s1" 1].map ConsensusVote.user_id).dedup).length :=
  (C4_population_invariant [ConsensusVote.mk "u1" "s1" 1] ["u1"] ["s1"]
    (by decide)).2

/-- C9: in every result, every statement record has
`0 ≤ agreement_ratio ≤ 1` and `0 ≤ divisiveness ≤ 1`, and both are
exactly 0 when `agree_count + disagree_count = 0`. -/
theorem C9_ratio_bounds (votes : List ConsensusVote)
    (ulist slist : List String) :
    ∀ sc ∈ (analyze_consensus votes ulist slist).statements,
      0 ≤ sc.agreement_ratio ∧ sc.agreement_ratio ≤ 1 ∧
      0 ≤ sc.divisiveness ∧ sc.divisiveness ≤ 1 ∧
      (sc.agree_count + sc.disagree_count = 0 →
        sc.agreement_ratio = 0 ∧ sc.divisiveness = 0) := by
  intro sc hsc
  simp only [analyze_consensus, List.mem_map] at hsc
  obtain ⟨sid, hsid, rfl⟩ := hsc
  simp only [statementConsensus]
  by_cases hv : 0 < (tallyAll (buildMatrix votes) ulist sid).1 +
      (tallyAll (buildMatrix votes) ulist sid).2.1
  · simp only [if_pos hv]
    have hc : (0 : ℚ) < (((tallyAll (buildMatrix votes) ulist sid).1 +
        (tallyAll (buildMatrix votes) ulist sid).2.1 : Nat) : ℚ) := by
      exact_mod_cast hv
    have h0 : (0 : ℚ) ≤ (((tallyAll (buildMatrix votes) ulist sid).1 : Nat) : ℚ) /
        (((tallyAll (buildMatrix votes) ulist sid).1 +
          (tallyAll (buildMatrix votes) ulist sid).2.1 : Nat) : ℚ) :=
      div_nonneg (Nat.cast_nonneg _) (le_of_lt hc)
    have h1 : (((tallyAll (buildMatrix votes) ulist sid).1 : Nat) : ℚ) /
        (((tallyAll (buildMatrix votes) ulist sid).1 +
          (tallyAll (buildMatrix votes) ulist sid).2.1 : Nat) : ℚ) ≤ 1 :=
      (div_le_one hc).2 (by exact_mod_cast Nat.le_add_right _ _)
    have habs : |(((tallyAll (buildMatrix votes) ulist sid).1 : Nat) : ℚ) /
        (((tallyAll (buildMatrix votes) ulist sid).1 +
          (tallyAll (buildMatrix votes) ulist sid).2.1 : Nat) : ℚ) - 1 / 2| ≤
        1 / 2 := by
      rw [abs_le]
      constructor <;> linarith
    have habs0 : (0 : ℚ) ≤ |(((tallyAll (buildMatrix votes) ulist sid).1 : Nat) : ℚ) /
        (((tallyAll (buildMatrix votes) ulist sid).1 +
          (tallyAll (buildMatrix votes) ulist sid).2.1 : Nat) : ℚ) - 1 / 2| :=
      abs_nonneg _
    refine ⟨h0, h1, by linarith, by linarith, fun hz => ?_⟩
    exact absurd hv (by omega)
  · simp only [if_neg hv]
    norm_num

/-- Witness for C9 at a concrete input. -/
theorem C9_ratio_bounds_witness :
    0 ≤ (statementConsensus (buildMatrix [ConsensusVote.mk "u1" "s1" 1])
      ["u1"] "s1").agreement_ratio :=
  ((C9_ratio_bounds [ConsensusVote.mk "u1" "s1" 1] ["u1"] ["s1"]) _
    (List.mem_cons_self _ _)).1

lemma userAvg_example_neg3 :
    userAvg [ConsensusVote.mk "u1" "s1" (-3)] ["s1"] "u1" = -3 := by
  have hE : userHasEntry [ConsensusVote.mk "u1" "s1" (-3)] "u1" = true := by
    decide
  have hm : buildMatrix [ConsensusVote.mk "u1" "s1" (-3)] "u1" "s1" =
      some (-3) := by decide
  unfold userAvg userSum
  rw [if_pos hE, if_neg (by decide)]
  simp [hm]

lemma userAvg_example_zero :
    userAvg [ConsensusVote.mk "u1" "s1" 0] ["s1"] "u1" = 0 := by
  have hE : userHasEntry [ConsensusVote.mk "u1" "s1" 0] "u1" = true := by
    decide
  have hm : buildMatrix [ConsensusVote.mk "u1" "s1" 0] "u1" "s1" =
      some 0 := by decide
  unfold userAvg userSum
  rw [if_pos hE, if_neg (by decide)]
  simp [hm]

/-- C7: every user occurring in the input lands in exactly one of the
two clusters, and the two member counts add up to
`total_participants`. -/
theorem C7_partition_completeness (votes : List ConsensusVote)
    (ulist slist : List String) (hu : ValidUserOrder votes ulist) :
    (∀ u, (∃ v ∈ votes, v.user_id = u) →
      (u ∈ clusterMembers (analyze_consensus votes ulist slist) 0 ∧
       u ∉ clusterMembers (analyze_consensus votes ulist slist) 1) ∨
      (u ∈ clusterMembers (analyze_consensus votes ulist slist) 1 ∧
       u ∉ clusterMembers (analyze_consensus votes ulist slist) 0)) ∧
    clusterMemberCount (analyze_consensus votes ulist slist) 0 +
      clusterMemberCount (analyze_consensus votes ulist slist) 1 =
      (analyze_consensus votes ulist slist).total_participants := by
  constructor
  · intro u hex
    obtain ⟨v, hv, rfl⟩ := hex
    have hul : v.user_id ∈ ulist := hu.2.2 v hv
    by_cases havg : 0 ≤ userAvg votes slist v.user_id
    · left
      refine ⟨(mem_cluster0_iff votes ulist slist _).2 ⟨hul, havg⟩, fun hc => ?_⟩
      exact absurd ((mem_cluster1_iff votes ulist slist _).1 hc).2
        (not_lt.2 havg)
    · right
      refine ⟨(mem_cluster1_iff votes ulist slist _).2
        ⟨hul, not_le.1 havg⟩, fun hc => ?_⟩
      exact absurd ((mem_cluster0_iff votes ulist slist _).1 hc).2 havg
  · have hpart := filter_sign_length votes slist ulist
    simp only [clusterMemberCount, analyze_consensus, splitUsers_eq,
      List.map_cons, List.map_nil, List.getD, List.getElem?_cons_zero,
      List.getElem?_cons_succ, Option.getD_some]
    exact hpart

/-- Witness for C7 at a concrete input. -/
theorem C7_partition_completeness_witness :
    clusterMemberCount
        (analyze_consensus [ConsensusVote.mk "u1" "s1" 1] ["u1"] ["s1"]) 0 +
      clusterMemberCount
        (analyze_consensus [ConsensusVote.mk "u1" "s1" 1] ["u1"] ["s1"]) 1 =
      (analyze_consensus [ConsensusVote.mk "u1" "s1" 1] ["u1"]
        ["s1"]).total_participants :=
  (C7_partition_completeness [ConsensusVote.mk "u1" "s1" 1] ["u1"] ["s1"]
    (by decide)).2

lemma clusterMembers_analyze_zero (votes : List ConsensusVote)
    (ulist slist : List String) :
    clusterMembers (analyze_consensus votes ulist slist) 0 =
      (splitUsers votes ulist slist).1 := rfl

lemma clusterMembers_analyze_one (votes : List ConsensusVote)
    (ulist slist : List String) :
    clusterMembers (analyze_consensus votes ulist slist) 1 =
      (splitUsers votes ulist slist).2 := rfl

lemma clusterAvgAgreement_analyze_zero (votes : List ConsensusVote)
    (ulist slist : List String) :
    clusterAvgAgreement (analyze_consensus votes ulist slist) 0 =
      (if (splitUsers votes ulist slist).1 ≠ [] then (7 : ℚ) / 10 else 0) :=
  rfl

lemma clusterAvgAgreement_analyze_one (votes : List ConsensusVote)
    (ulist slist : List String) :
    clusterAvgAgreement (analyze_consensus votes ulist slist) 1 =
      (if (splitUsers votes ulist slist).2 ≠ [] then (3 : ℚ) / 10 else 0) :=
  rfl

lemma clusterCount_analyze (votes : List ConsensusVote)
    (ulist slist : List String) :
    (analyze_consensus votes ulist slist).cluster_count =
      if 0 < (splitUsers votes ulist slist).1.length ∨
          0 < (splitUsers votes ulist slist).2.length then 2 else 0 := by
  simp only [analyze_consensus, List.any_cons, List.any_nil, Bool.or_false,
    Bool.or_eq_true, decide_eq_true_eq]

/-- C8: the per-cluster `avg_agreement` is the fixed constant 0.7
(cluster 0) or 0.3 (cluster 1) whenever the cluster is non-empty and 0
when it is empty, and `cluster_count` is 2 exactly when at least one
cluster is non-empty, else 0. -/
theorem C8_fixed_cluster_stats (votes : List ConsensusVote)
    (ulist slist : List String) :
    (clusterMembers (analyze_consensus votes ulist slist) 0 ≠ [] →
      clusterAvgAgreement (analyze_consensus votes ulist slist) 0 = 7 / 10) ∧
    (clusterMembers (analyze_consensus votes ulist slist) 0 = [] →
      clusterAvgAgreement (analyze_consensus votes ulist slist) 0 = 0) ∧
    (clusterMembers (analyze_consensus votes ulist slist) 1 ≠ [] →
      clusterAvgAgreement (analyze_consensus votes ulist slist) 1 = 3 / 10) ∧
    (clusterMembers (analyze_consensus votes ulist slist) 1 = [] →
      clusterAvgAgreement (analyze_consensus votes ulist slist) 1 = 0) ∧
    (analyze_consensus votes ulist slist).cluster_count =
      (if clusterMembers (analyze_consensus votes ulist slist) 0 ≠ [] ∨
          clusterMembers (analyze_consensus votes ulist slist) 1 ≠ []
        then 2 else 0) := by
  rw [clusterMembers_analyze_zero, clusterMembers_analyze_one,
    clusterAvgAgreement_analyze_zero, clusterAvgAgreement_analyze_one,
    clusterCount_analyze]
  refine ⟨fun h => if_pos h, fun h => by rw [if_neg (not_not_intro h)],
    fun h => if_pos h, fun h => by rw [if_neg (not_not_intro h)], ?_⟩
  have e1 : 0 < (splitUsers votes ulist slist).1.length ↔
      (splitUsers votes ulist slist).1 ≠ [] := List.length_pos
  have e2 : 0 < (splitUsers votes ulist slist).2.length ↔
      (splitUsers votes ulist slist).2 ≠ [] := List.length_pos
  rw [if_congr (or_congr e1 e2) rfl rfl]

/-- Witness for C8 at a concrete input: one user with average 0 lands in
cluster 0, which therefore carries the constant 0.7. -/
theorem C8_fixed_cluster_stats_witness :
    clusterAvgAgreement
      (analyze_consensus [ConsensusVote.mk "u1" "s1" 0] ["u1"] ["s1"]) 0 =
      7 / 10 := by
  apply (C8_fixed_cluster_stats [ConsensusVote.mk "u1" "s1" 0] ["u1"] ["s1"]).1
  apply List.ne_nil_of_mem
  exact (mem_cluster0_iff [ConsensusVote.mk "u1" "s1" 0] ["u1"] ["s1"] "u1").2
    ⟨by decide, by rw [userAvg_example_zero]⟩

/-- C5: the vote matrix implements last-write-wins — a lookup returns
the value of the last occurrence, in input order, of a vote on that
`(user, statement)` pair; in particular the input
`[(u1,s1,+1), (u1,s1,-1)]` yields `-1` for `(u1,s1)`; and the whole
analysis depends on the input only through the matrix content (and the
set of users with an entry), so the aggregator and bisector see only
the final value. -/
theorem C5_last_write_wins :
    (∀ (votes : List ConsensusVote) (u s : String),
      buildMatrix votes u s = lastRecordedVote votes u s) ∧
    buildMatrix [ConsensusVote.mk "u1" "s1" 1, ConsensusVote.mk "u1" "s1" (-1)]
      "u1" "s1" = some (-1) ∧
    (∀ (votes1 votes2 : List ConsensusVote) (ulist slist : List String),
      buildMatrix votes1 = buildMatrix votes2 →
      userHasEntry votes1 = userHasEntry votes2 →
      analyze_consensus votes1 ulist slist =
        analyze_consensus votes2 ulist slist) := by
  refine ⟨buildMatrix_eq_lastRecordedVote, by decide, ?_⟩
  intro votes1 votes2 ulist slist hm he
  simp only [analyze_consensus]
  rw [hm, splitUsers_congr hm he]

/-- Witness for C5: the two-vote input and the single final vote have
the same matrix, hence the same analysis result. -/
theorem C5_last_write_wins_witness :
    analyze_consensus
        [ConsensusVote.mk "u1" "s1" 1, ConsensusVote.mk "u1" "s1" (-1)]
        ["u1"] ["s1"] =
      analyze_consensus [ConsensusVote.mk "u1" "s1" (-1)] ["u1"] ["s1"] := by
  apply C5_last_write_wins.2.2
  · funext u s
    rw [buildMatrix_eq_lastRecordedVote, buildMatrix_eq_lastRecordedVote]
    unfold lastRecordedVote
    by_cases hc : u = "u1" ∧ s = "s1" <;> simp [hc]
  · funext u
    simp [userHasEntry]

/-- C1 counterexample: the code commits to no canonical order — both
`["s1","s2"]` and `["s2","s1"]` are possible iteration orders of the
statement set for the same input, and they yield different results
(the statement records appear in different orders), so repeated
invocations are not byte-identical. -/
theorem C1_counterexample :
    ValidUserOrder
      [ConsensusVote.mk "u1" "s1" 1, ConsensusVote.mk "u1" "s2" 1] ["u1"] ∧
    ValidStmtOrder
      [ConsensusVote.mk "u1" "s1" 1, ConsensusVote.mk "u1" "s2" 1]
      ["s1", "s2"] ∧
    ValidStmtOrder
      [ConsensusVote.mk "u1" "s1" 1, ConsensusVote.mk "u1" "s2" 1]
      ["s2", "s1"] ∧
    analyze_consensus
        [ConsensusVote.mk "u1" "s1" 1, ConsensusVote.mk "u1" "s2" 1]
        ["u1"] ["s1", "s2"] ≠
      analyze_consensus
        [ConsensusVote.mk "u1" "s1" 1, ConsensusVote.mk "u1" "s2" 1]
        ["u1"] ["s2", "s1"] := by
  refine ⟨by decide, by decide, by decide, fun h => ?_⟩
  have h2 := congrArg
    (fun r => r.statements.map StatementConsensus.statement_id) h
  have e1 : (analyze_consensus
      [ConsensusVote.mk "u1" "s1" 1, ConsensusVote.mk "u1" "s2" 1]
      ["u1"] ["s1", "s2"]).statements.map StatementConsensus.statement_id =
      ["s1", "s2"] := rfl
  have e2 : (analyze_consensus
      [ConsensusVote.mk "u1" "s1" 1, ConsensusVote.mk "u1" "s2" 1]
      ["u1"] ["s2", "s1"]).statements.map StatementConsensus.statement_id =
      ["s2", "s1"] := rfl
  simp only [e1, e2] at h2
  exact absurd h2 (by decide)

/-- C1 amended: the result is a function of the input votes and the two
iteration orders, and any two valid orders give the same result up to
permutation — the same statement records as a multiset, the same
`total_participants` and `cluster_count`, the same per-cluster `id`,
`member_count` and `avg_agreement`, and the same cluster members up to
order.  Byte-identical output would additionally need a canonical
order, which the code does not commit to. -/
theorem C1_amended (votes : List ConsensusVote) (ul1 sl1 ul2 sl2 : List String)
    (hu1 : ValidUserOrder votes ul1) (hs1 : ValidStmtOrder votes sl1)
    (hu2 : ValidUserOrder votes ul2) (hs2 : ValidStmtOrder votes sl2) :
    (analyze_consensus votes ul1 sl1).statements.Perm
      (analyze_consensus votes ul2 sl2).statements ∧
    (analyze_consensus votes ul1 sl1).total_participants =
      (analyze_consensus votes ul2 sl2).total_participants ∧
    (analyze_consensus votes ul1 sl1).cluster_count =
      (analyze_consensus votes ul2 sl2).cluster_count ∧
    (analyze_consensus votes ul1 sl1).clusters.map OpinionCluster.id =
      (analyze_consensus votes ul2 sl2).clusters.map OpinionCluster.id ∧
    (analyze_consensus votes ul1 sl1).clusters.map
        OpinionCluster.member_count =
      (analyze_consensus votes ul2 sl2).clusters.map
        OpinionCluster.member_count ∧
    (analyze_consensus votes ul1 sl1).clusters.map
        OpinionCluster.avg_agreement =
      (analyze_consensus votes ul2 sl2).clusters.map
        OpinionCluster.avg_agreement ∧
    List.Forall₂ List.Perm
      ((analyze_consensus votes ul1 sl1).clusters.map
        OpinionCluster.member_ids)
      ((analyze_consensus votes ul2 sl2).clusters.map
        OpinionCluster.member_ids) := by
  have hpu : ul1.Perm ul2 := validUserOrder_perm hu1 hu2
  have hps : sl1.Perm sl2 := validStmtOrder_perm hs1 hs2
  have hstmt : statementConsensus (buildMatrix votes) ul1 =
      statementConsensus (buildMatrix votes) ul2 :=
    funext fun sid => statementConsensus_perm _ hpu sid
  have havg : ∀ u, userAvg votes sl1 u = userAvg votes sl2 u :=
    fun u => userAvg_perm votes hps u
  have hfa : (fun u => decide (userAvg votes sl1 u ≥ 0)) =
      (fun u => decide (userAvg votes sl2 u ≥ 0)) := by
    funext u
    rw [havg u]
  have hfb : (fun u => decide (userAvg votes sl1 u < 0)) =
      (fun u => decide (userAvg votes sl2 u < 0)) := by
    funext u
    rw [havg u]
  have hA : (ul1.filter (fun u => decide (userAvg votes sl1 u ≥ 0))).Perm
      (ul2.filter (fun u => decide (userAvg votes sl2 u ≥ 0))) := by
    rw [hfa]
    exact hpu.filter _
  have hB : (ul1.filter (fun u => decide (userAvg votes sl1 u < 0))).Perm
      (ul2.filter (fun u => decide (userAvg votes sl2 u < 0))) := by
    rw [hfb]
    exact hpu.filter _
  refine ⟨?_, ?_, ?_, ?_, ?_, ?_, ?_⟩
  · show (sl1.map (statementConsensus (buildMatrix votes) ul1)).Perm
      (sl2.map (statementConsensus (buildMatrix votes) ul2))
    rw [hstmt]
    exact hps.map _
  · exact hpu.length_eq
  · rw [clusterCount_analyze, clusterCount_analyze, splitUsers_eq,
      splitUsers_eq, hA.length_eq, hB.length_eq]
  · rfl
  · show [(splitUsers votes ul1 sl1).1.length,
        (splitUsers votes ul1 sl1).2.length] =
      [(splitUsers votes ul2 sl2).1.length,
        (splitUsers votes ul2 sl2).2.length]
    rw [splitUsers_eq, splitUsers_eq, hA.length_eq, hB.length_eq]
  · show [if (splitUsers votes ul1 sl1).1 ≠ [] then (7 : ℚ) / 10 else 0,
        if (splitUsers votes ul1 sl1).2 ≠ [] then (3 : ℚ) / 10 else 0] =
      [if (splitUsers votes ul2 sl2).1 ≠ [] then (7 : ℚ) / 10 else 0,
        if (splitUsers votes ul2 sl2).2 ≠ [] then (3 : ℚ) / 10 else 0]
    rw [splitUsers_eq, splitUsers_eq]
    have hAe : (ul1.filter (fun u => decide (userAvg votes sl1 u ≥ 0))) = []
        ↔ (ul2.filter (fun u => decide (userAvg votes sl2 u ≥ 0))) = [] := by
      rw [← List.length_eq_zero, ← List.length_eq_zero, hA.length_eq]
    have hBe : (ul1.filter (fun u => decide (userAvg votes sl1 u < 0))) = []
        ↔ (ul2.filter (fun u => decide (userAvg votes sl2 u < 0))) = [] := by
      rw [← List.length_eq_zero, ← List.length_eq_zero, hB.length_eq]
    rw [if_congr (not_congr hAe) rfl rfl, if_congr (not_congr hBe) rfl rfl]
  · show List.Forall₂ List.Perm
      [(splitUsers votes ul1 sl1).1, (splitUsers votes ul1 sl1).2]
      [(splitUsers votes ul2 sl2).1, (splitUsers votes ul2 sl2).2]
    rw [splitUsers_eq, splitUsers_eq]
    exact List.Forall₂.cons hA (List.Forall₂.cons hB List.Forall₂.nil)

/-- Witness for the amended C1 at a concrete input and two concrete
valid statement orders. -/
theorem C1_amended_witness :
    (analyze_consensus
      [ConsensusVote.mk "u1" "s1" 1, ConsensusVote.mk "u1" "s2" 1]
      ["u1"] ["s1", "s2"]).total_participants =
    (analyze_consensus
      [ConsensusVote.mk "u1" "s1" 1, ConsensusVote.mk "u1" "s2" 1]
      ["u1"] ["s2", "s1"]).total_participants :=
  (C1_amended [ConsensusVote.mk "u1" "s1" 1, ConsensusVote.mk "u1" "s2" 1]
    ["u1"] ["s1", "s2"] ["u1"] ["s2", "s1"]
    (by decide) (by decide) (by decide) (by decide)).2.1

/-- C2 counterexample: the out-of-range value `-3` is classified as a
pass by the aggregator in both runs, but the bisector does not treat it
as 0 — it enters the user's mean as `-3`, so the mean and the cluster
assignment differ from the explicit-abstain input `(u1, s1, 0)`. -/
theorem C2_counterexample :
    ((-3 : Int) ≠ 1 ∧ (-3 : Int) ≠ 0 ∧ (-3 : Int) ≠ -1) ∧
    (analyze_consensus [ConsensusVote.mk "u1" "s1" (-3)] ["u1"]
      ["s1"]).statements.map StatementConsensus.pass_count = [1] ∧
    (analyze_consensus [ConsensusVote.mk "u1" "s1" 0] ["u1"]
      ["s1"]).statements.map StatementConsensus.pass_count = [1] ∧
    userAvg [ConsensusVote.mk "u1" "s1" (-3)] ["s1"] "u1" ≠
      userAvg [ConsensusVote.mk "u1" "s1" 0] ["s1"] "u1" ∧
    "u1" ∈ clusterMembers
      (analyze_consensus [ConsensusVote.mk "u1" "s1" (-3)] ["u1"] ["s1"]) 1 ∧
    "u1" ∈ clusterMembers
      (analyze_consensus [ConsensusVote.mk "u1" "s1" 0] ["u1"] ["s1"]) 0 := by
  refine ⟨by decide, rfl, rfl, ?_, ?_, ?_⟩
  · rw [userAvg_example_neg3, userAvg_example_zero]
    norm_num
  · refine (mem_cluster1_iff _ _ _ _).2 ⟨by decide, ?_⟩
    rw [userAvg_example_neg3]
    norm_num
  · refine (mem_cluster0_iff _ _ _ _).2 ⟨by decide, ?_⟩
    rw [userAvg_example_zero]

/-- C2 amended: a recorded vote value other than `+1`/`-1` (hence any
out-of-range value) is counted as a pass by the aggregator — the three
counters are exactly the counts of users whose recorded value is `+1`,
is `-1`, or is anything else including absent — but the bisector uses
the recorded value itself in the user's mean; only an unrecorded vote
contributes 0 (`userAvg` coincides with the spec-side
`specUserMean`, which sums the recorded values with default 0). -/
theorem C2_amended (votes : List ConsensusVote) (ulist : List String)
    (sid : String) :
    ((statementConsensus (buildMatrix votes) ulist sid).agree_count =
      ulist.countP (fun u => decide (buildMatrix votes u sid = some 1)) ∧
     (statementConsensus (buildMatrix votes) ulist sid).disagree_count =
      ulist.countP (fun u => decide (buildMatrix votes u sid = some (-1))) ∧
     (statementConsensus (buildMatrix votes) ulist sid).pass_count =
      ulist.countP (fun u => decide (¬ buildMatrix votes u sid = some 1 ∧
        ¬ buildMatrix votes u sid = some (-1)))) ∧
    ∀ slist u, userAvg votes slist u = specUserMean votes slist u := by
  refine ⟨⟨?_, ?_, ?_⟩, fun slist u => userAvg_eq_specUserMean votes slist u⟩
  all_goals simp [statementConsensus, tallyAll_eq]

/-- C3 counterexample: a payload holding one well-formed record and one
malformed record does not succeed over the well-formed subset — the
whole parse fails and degrades to the empty vote list, giving zero
participants, whereas analysing just the well-formed subset would give
one participant. -/
theorem C3_counterexample :
    parsedOrDefault [RawRecord.ok (ConsensusVote.mk "u1" "s1" 1),
      RawRecord.malformed] = [] ∧
    parsedOrDefault [RawRecord.ok (ConsensusVote.mk "u1" "s1" 1),
      RawRecord.malformed] ≠ [ConsensusVote.mk "u1" "s1" 1] ∧
    (analyze_consensus
      (parsedOrDefault [RawRecord.ok (ConsensusVote.mk "u1" "s1" 1),
        RawRecord.malformed]) [] []).total_participants = 0 ∧
    (analyze_consensus [ConsensusVote.mk "u1" "s1" 1] ["u1"]
      ["s1"]).total_participants = 1 :=
  ⟨rfl, by decide, rfl, rfl⟩

/-- C3 amended: the parse of the record sequence is all-or-nothing — if
any record is malformed, the whole payload fails to parse and the
function falls back to the empty vote sequence (zero participants,
zero statements); only when every record is well-formed does it analyse
them all.  No error is raised to the caller in either case. -/
theorem C3_amended (records : List RawRecord) :
    (RawRecord.malformed ∈ records →
      parseVotes records = none ∧ parsedOrDefault records = []) ∧
    (RawRecord.malformed ∉ records →
      parseVotes records = some (records.filterMap
        (fun r => match r with
          | RawRecord.ok v => some v
          | RawRecord.malformed => none))) := by
  induction records with
  | nil =>
      exact ⟨fun h => absurd h (List.not_mem_nil _), fun _ => rfl⟩
  | cons r t ih =>
      cases r with
      | malformed =>
          exact ⟨fun _ => ⟨rfl, rfl⟩,
            fun h => absurd (List.mem_cons_self _ _) h⟩
      | ok v =>
          constructor
          · intro h
            have hm : RawRecord.malformed ∈ t := by
              rcases List.mem_cons.1 h with h1 | h1
              · exact absurd h1 (by simp)
              · exact h1
            have h2 := (ih.1 hm).1
            refine ⟨?_, ?_⟩
            · simp [parseVotes, h2]
            · simp [parsedOrDefault, parseVotes, h2]
          · intro h
            have hm : RawRecord.malformed ∉ t :=
              fun hc => h (List.mem_cons_of_mem _ hc)
            have h2 := ih.2 hm
            simp [parseVotes, h2, List.filterMap_cons]

/-- Witness for the amended C3 at a concrete input. -/
theorem C3_amended_witness :
    parseVotes [RawRecord.malformed] = none ∧
      parsedOrDefault [RawRecord.malformed] = [] :=
  (C3_amended [RawRecord.malformed]).1 (by decide)

/-- C6 counterexample: the user `u1` casts no decisive vote (their only
vote has the out-of-range value `-3`, which the aggregator classifies
as a pass), yet they land in cluster 1, not cluster 0, because the
bisector mean uses the recorded value `-3`. -/
theorem C6_counterexample :
    (∀ v ∈ [ConsensusVote.mk "u1" "s1" (-3)], v.value ≠ 1 ∧ v.value ≠ -1) ∧
    "u1" ∉ clusterMembers
      (analyze_consensus [ConsensusVote.mk "u1" "s1" (-3)] ["u1"] ["s1"]) 0 ∧
    "u1" ∈ clusterMembers
      (analyze_consensus [ConsensusVote.mk "u1" "s1" (-3)] ["u1"] ["s1"]) 1 := by
  refine ⟨by decide, fun hc => ?_, ?_⟩
  · have h := ((mem_cluster0_iff _ _ _ _).1 hc).2
    rw [userAvg_example_neg3] at h
    norm_num at h
  · refine (mem_cluster1_iff _ _ _ _).2 ⟨by decide, ?_⟩
    rw [userAvg_example_neg3]
    norm_num

/-- C6 amended: for every listed user, cluster membership is decided by
the sign of the arithmetic mean of the user's recorded vote values over
all distinct statements (an unrecorded vote counting as 0, the mean
being 0 when the statement set is empty): mean `≥ 0` puts the user in
cluster 0 and mean `< 0` in cluster 1.  In particular a user all of
whose votes are explicit abstains (value 0) lands in cluster 0; a user
whose only votes are out-of-range need not (see the counterexample). -/
theorem C6_amended (votes : List ConsensusVote) (ulist slist : List String)
    (u : String) (hu : u ∈ ulist) :
    (u ∈ clusterMembers (analyze_consensus votes ulist slist) 0 ↔
      0 ≤ specUserMean votes slist u) ∧
    (u ∈ clusterMembers (analyze_consensus votes ulist slist) 1 ↔
      specUserMean votes slist u < 0) ∧
    ((∀ v ∈ votes, v.user_id = u → v.value = 0) →
      u ∈ clusterMembers (analyze_consensus votes ulist slist) 0) := by
  have hspec := userAvg_eq_specUserMean votes slist u
  refine ⟨?_, ?_, ?_⟩
  · rw [mem_cluster0_iff, hspec]
    exact and_iff_right hu
  · rw [mem_cluster1_iff, hspec]
    exact and_iff_right hu
  · intro hz
    refine (mem_cluster0_iff votes ulist slist u).2 ⟨hu, ?_⟩
    have hlook : ∀ s, (buildMatrix votes u s).getD 0 = 0 := by
      intro s
      rw [buildMatrix_eq_lastRecordedVote]
      unfold lastRecordedVote
      cases hlast : (votes.filter
          (fun v => decide (u = v.user_id ∧ s = v.statement_id))).getLast? with
      | none => rfl
      | some v =>
          have hv := List.mem_filter.1 (List.mem_of_getLast?_eq_some hlast)
          have hval := hz v hv.1 (of_decide_eq_true hv.2).1.symm
          simp [hval]
    unfold userAvg userSum
    by_cases hE : userHasEntry votes u = true
    · rw [if_pos hE]
      by_cases hs : slist = []
      · rw [if_pos hs]
      · rw [if_neg hs]
        have hsum : (slist.map
            (fun s => (buildMatrix votes u s).getD 0)).sum = 0 :=
          List.sum_eq_zero (fun x hx => by
            obtain ⟨s, _, rfl⟩ := List.mem_map.1 hx
            exact hlook s)
        rw [hsum]
        simp
    · rw [if_neg hE]

/-- Witness for the amended C6 at a concrete input: a user whose only
vote is an explicit abstain lands in cluster 0. -/
theorem C6_amended_witness :
    "u1" ∈ clusterMembers
      (analyze_consensus [ConsensusVote.mk "u1" "s1" 0] ["u1"] ["s1"]) 0 :=
  (C6_amended [ConsensusVote.mk "u1" "s1" 0] ["u1"] ["s1"] "u1"
    (by decide)).2.2 (by decide)

end Purplesky
